import Mathlib

/-!
Shallow embedding of the reminder scheduling engine of desk-clock
(src/preload.js, class AlertManager and its helpers).

Clock model: timestamps are epoch milliseconds (Nat) on a DST-free local
clock at UTC offset 0, so JS Date field extraction is plain arithmetic and
date.setDate(date.getDate() + n) adds exactly n * 86400000 ms.  Subtractions
of timestamps in the source are modelled in Int to avoid Nat truncation.
-/

namespace DeskClock

def msPerMinute : Nat := 60000

def msPerHour : Nat := 3600000

def msPerDay : Nat := 86400000

/-- JS Date#getHours on the DST-free clock. -/
def jsHours (t : Nat) : Nat := t / msPerHour % 24

/-- JS Date#getMinutes. -/
def jsMinutes (t : Nat) : Nat := t / msPerMinute % 60

/-- JS Date#getDay: 0 = Sunday; epoch day 0 (1970-01-01) was a Thursday. -/
def jsDay (t : Nat) : Nat := (t / msPerDay + 4) % 7

/-- JS new Date(t).setHours(0,0,0,0): midnight of the day containing t. -/
def jsMidnight (t : Nat) : Nat := t / msPerDay * msPerDay

/-- JS date.setDate(date.getDate() + n) on the DST-free clock. -/
def jsAddDays (t : Nat) (n : Nat) : Nat := t + n * msPerDay

/-- Minute-of-day of a timestamp, as in the source's
blockHour * 60 + blockMinute computation. -/
def minuteOfDay (t : Nat) : Int := (jsHours t : Int) * 60 + (jsMinutes t : Int)

/-- timeDiff in the source: totalBlockMinutes - totalCurrentMinutes. -/
def timeDiffOf (now blockTime : Nat) : Int := minuteOfDay blockTime - minuteOfDay now

/-! Civil (Gregorian) calendar, used to state what "the next calendar day"
means for the daily recurrence claim. -/

def isLeap (y : Nat) : Bool := (y % 4 == 0 && y % 100 != 0) || y % 400 == 0

def daysInMonth (y m : Nat) : Nat :=
  if m = 2 then (if isLeap y then 29 else 28)
  else if m = 4 ∨ m = 6 ∨ m = 9 ∨ m = 11 then 30
  else 31

def daysInYear (y : Nat) : Nat := if isLeap y then 366 else 365

/-- Days from 1970-01-01 to y-01-01, for y ≥ 1970. -/
def daysBeforeYear (y : Nat) : Nat :=
  (List.range (y - 1970)).foldl (fun acc i => acc + daysInYear (1970 + i)) 0

/-- Days from y-01-01 to y-m-01 (months are 1-based). -/
def daysBeforeMonth (y m : Nat) : Nat :=
  (List.range (m - 1)).foldl (fun acc i => acc + daysInMonth y (i + 1)) 0

/-- Epoch milliseconds of the civil instant y-m-d hh:mm (y ≥ 1970). -/
def civilToMs (y m d hh mm : Nat) : Nat :=
  (daysBeforeYear y + daysBeforeMonth y m + (d - 1)) * msPerDay
    + hh * msPerHour + mm * msPerMinute

/-- The next calendar day after y-m-d, rolling over months and years. -/
def nextCivil (y m d : Nat) : Nat × Nat × Nat :=
  if d < daysInMonth y m then (y, m, d + 1)
  else if m < 12 then (y, m + 1, 1)
  else (y + 1, 1, 1)

/-! Data model (src/preload.js).  Fields the engine never defaults
(id, status, enabled, preAlert, startTime) are modelled as always present;
fields the source guards with undefined-checks or || defaults
(reminderMode, weekdays, reminderCount, remainingCount) are Options. -/

inductive Status where
  | pending
  | disabled
  | completed
deriving DecidableEq, Repr

inductive ReminderMode where
  | daily
  | weekly
  | once
deriving DecidableEq, Repr

structure TimeBlock where
  id : Nat
  enabled : Bool
  status : Status
  startTime : Nat
  preAlert : Bool
  reminderMode : Option ReminderMode
  weekdays : Option (List Nat)
  reminderCount : Option Int
  remainingCount : Option Int
deriving DecidableEq, Repr

structure GlobalSettings where
  preAlertTime : Int
  preAlertCount : Int
  globalAlertEnabled : Bool
deriving DecidableEq, Repr

/-- Fallback in the tick loop: dbStorage.getItem('globalSettings') || default. -/
def defaultSettings : GlobalSettings :=
  { preAlertTime := 3, preAlertCount := 1, globalAlertEnabled := true }

/-! JS Map operations, as association lists keyed by block id.  States the
program reaches have at most one entry per key; the operations are total on
arbitrary lists and consistently treat the first entry as the binding. -/

def mapGet {α : Type} : List (Nat × α) → Nat → Option α
  | [], _ => none
  | p :: rest, k => if p.1 = k then some p.2 else mapGet rest k

def mapSet {α : Type} : List (Nat × α) → Nat → α → List (Nat × α)
  | [], k, v => [(k, v)]
  | p :: rest, k, v => if p.1 = k then (k, v) :: rest else p :: mapSet rest k v

def mapDelete {α : Type} : List (Nat × α) → Nat → List (Nat × α)
  | [], _ => []
  | p :: rest, k => if p.1 = k then mapDelete rest k else p :: mapDelete rest k

/-- The four module-level dedup maps of the engine (src/preload.js lines
1495-1498), all keyed by block id. -/
structure Dedup where
  lastAlertDates : List (Nat × Nat)
  lastNotificationTimes : List (Nat × Nat)
  lastPreAlertTimes : List (Nat × Nat)
  lastRemainingMinutes : List (Nat × Int)
deriving DecidableEq, Repr

def emptyDedup : Dedup :=
  { lastAlertDates := [], lastNotificationTimes := [],
    lastPreAlertTimes := [], lastRemainingMinutes := [] }

/-- The dedup cleanup done by deleteTimeBlock / updateTimeBlock. -/
def dedupClearFor (d : Dedup) (id : Nat) : Dedup :=
  { lastAlertDates := mapDelete d.lastAlertDates id
    lastNotificationTimes := mapDelete d.lastNotificationTimes id
    lastPreAlertTimes := mapDelete d.lastPreAlertTimes id
    lastRemainingMinutes := mapDelete d.lastRemainingMinutes id }

/-- The per-block normalization applied by window.saveTimeSettings: default
reminderCount to -1 and remainingCount to reminderCount.  The id, createdAt,
status and preAlert defaults of the source only fill fields this model keeps
always present, so they are identities here. -/
def normalizeBlock (b : TimeBlock) : TimeBlock :=
  { b with
    reminderCount := some (b.reminderCount.getD (-1))
    remainingCount := some (b.remainingCount.getD (b.reminderCount.getD (-1))) }

/-- window.saveTimeSettings: normalize every block and store the list. -/
def saveTimeSettings (blocks : List TimeBlock) : List TimeBlock :=
  blocks.map normalizeBlock

/-- The store update of window.deleteTimeBlock: re-read the store, drop the
block with the given id, write the result back through saveTimeSettings. -/
def deleteTimeBlock (store : List TimeBlock) (id : Nat) : List TimeBlock :=
  saveTimeSettings (store.filter (fun b => b.id != id))

/-- AlertManager.getNextWeeklyAlertDate (src/preload.js lines 1702-1718):
scan i = 1..7, take the first i with (currentWeekday + i) % 7 in weekdays
(daysToAdd stays 1 when nothing matches), and add that many days. -/
def getNextWeeklyAlertDate (currentDate : Nat) (weekdays : List Nat) : Nat :=
  let currentWeekday := jsDay currentDate
  let daysToAdd :=
    (([1, 2, 3, 4, 5, 6, 7].find?
      (fun i => weekdays.contains ((currentWeekday + i) % 7))).getD 1)
  jsAddDays currentDate daysToAdd

/-! The poll tick of AlertManager.startGlobalTimer (src/preload.js lines
1518-1660).  The accumulator threads the evolving store, dedup maps, the
in-memory this.timeBlocks array (mem, with in-place mutations applied), the
alerts dispatched this tick, and the hasUpdates flag — which the source
computes but never reads again. -/

structure TickAcc where
  store : List TimeBlock
  dedup : Dedup
  mem : List TimeBlock
  firedPre : List (Nat × Int)
  firedMain : List Nat
  hasUpdates : Bool
deriving DecidableEq, Repr

/-- The pre-alert fire condition (lines 1562-1568).  Note the third conjunct
compares preAlertCount against the SIZE of the whole lastPreAlertTimes map,
across all blocks.  Math.floor division is Int.fdiv; for
preAlertCount ≤ 0 the source yields a non-finite interval but the third
conjunct is already false, so the conjunction agrees with the source. -/
def preAlertFires (settings : GlobalSettings) (now : Nat) (d : Dedup)
    (b : TimeBlock) (timeDiff : Int) : Bool :=
  let lastPreAlertTime : Nat := (mapGet d.lastPreAlertTimes b.id).getD 0
  let lastRemaining : Int := (mapGet d.lastRemainingMinutes b.id).getD 0
  let preAlertInterval : Int := settings.preAlertTime.fdiv settings.preAlertCount
  decide (lastRemaining ≠ timeDiff) &&
  decide ((now : Int) - (lastPreAlertTime : Int) ≥ preAlertInterval * 60000) &&
  decide (settings.preAlertCount > (d.lastPreAlertTimes.length : Int))

/-- Pre-alert evaluation for one block (lines 1547-1578). -/
def preAlertStep (settings : GlobalSettings) (now : Nat) (acc : TickAcc)
    (b : TimeBlock) : TickAcc :=
  let timeDiff := timeDiffOf now b.startTime
  if b.preAlert && decide (timeDiff > 0) && decide (timeDiff ≤ settings.preAlertTime) then
    let rm := b.reminderMode.getD ReminderMode.daily
    let shouldPreAlert : Bool :=
      if rm = ReminderMode.weekly then (b.weekdays.getD []).contains (jsDay now) else true
    if shouldPreAlert then
      if preAlertFires settings now acc.dedup b timeDiff then
        { acc with
          firedPre := acc.firedPre ++ [(b.id, timeDiff)]
          dedup := { acc.dedup with
            lastRemainingMinutes := mapSet acc.dedup.lastRemainingMinutes b.id timeDiff
            lastPreAlertTimes := mapSet acc.dedup.lastPreAlertTimes b.id now }
          hasUpdates := true }
      else acc
    else acc
  else acc

/-- The main-alert dedup guard (lines 1600-1604): not yet fired today, and
at least 10 seconds since the last notification for this block. -/
def mainAlertFires (now : Nat) (d : Dedup) (b : TimeBlock) : Bool :=
  let today := jsMidnight now
  let lastNotificationTime : Nat := (mapGet d.lastNotificationTimes b.id).getD 0
  let lastAlertDate := mapGet d.lastAlertDates b.id
  decide (lastAlertDate ≠ some today) &&
  decide ((now : Int) - (lastNotificationTime : Int) ≥ 10000)

/-- Post-fire block mutation for non-once modes (lines 1619-1643): count
handling, recurrence roll-forward, then the unconditional
block.status = pending reset. -/
def rollBlock (b : TimeBlock) : TimeBlock :=
  let reminderCount := b.reminderCount.getD (-1)
  let remainingCount := b.remainingCount.getD reminderCount
  let b1 :=
    if reminderCount ≠ -1 then
      if remainingCount > 0 then { b with remainingCount := some (remainingCount - 1) }
      else { b with status := Status.disabled }
    else b
  let rm := b.reminderMode.getD ReminderMode.daily
  let b2 :=
    if rm = ReminderMode.daily then { b1 with startTime := jsAddDays b.startTime 1 }
    else if rm = ReminderMode.weekly then
      { b1 with startTime := getNextWeeklyAlertDate b.startTime (b.weekdays.getD []) }
    else b1
  { b2 with status := Status.pending }

/-- Main-alert evaluation for one block (lines 1581-1652). -/
def mainAlertStep (settings : GlobalSettings) (now : Nat) (acc : TickAcc)
    (b : TimeBlock) : TickAcc :=
  if jsHours now = jsHours b.startTime ∧ jsMinutes now = jsMinutes b.startTime then
    let rm := b.reminderMode.getD ReminderMode.daily
    let shouldAlert : Bool :=
      if rm = ReminderMode.weekly then (b.weekdays.getD []).contains (jsDay now) else true
    if shouldAlert then
      if mainAlertFires now acc.dedup b then
        let d1 := { acc.dedup with
          lastAlertDates := mapSet acc.dedup.lastAlertDates b.id (jsMidnight now)
          lastNotificationTimes := mapSet acc.dedup.lastNotificationTimes b.id now }
        if b.reminderMode = some ReminderMode.once then
          { acc with
            dedup := dedupClearFor d1 b.id
            store := deleteTimeBlock acc.store b.id
            mem := acc.mem ++ [b]
            firedMain := acc.firedMain ++ [b.id]
            hasUpdates := true }
        else
          { acc with
            dedup := { d1 with
              lastRemainingMinutes := mapDelete d1.lastRemainingMinutes b.id
              lastPreAlertTimes := mapDelete d1.lastPreAlertTimes b.id }
            mem := acc.mem ++ [rollBlock b]
            firedMain := acc.firedMain ++ [b.id]
            hasUpdates := true }
      else { acc with mem := acc.mem ++ [b] }
    else { acc with mem := acc.mem ++ [b] }
  else { acc with mem := acc.mem ++ [b] }

/-- Per-block body of the forEach (lines 1534-1653): skip blocks that are
not enabled or not pending, otherwise run the pre-alert then the main-alert
evaluation. -/
def evalBlock (settings : GlobalSettings) (now : Nat) (acc : TickAcc)
    (b : TimeBlock) : TickAcc :=
  if b.enabled = false ∨ b.status ≠ Status.pending then
    { acc with mem := acc.mem ++ [b] }
  else
    mainAlertStep settings now (preAlertStep settings now acc b) b

/-- One poll tick of startGlobalTimer.  It re-reads the store into
this.timeBlocks, applies the stored-settings fallback, aborts when the
global switch is off, and folds the per-block evaluation over the snapshot.
Faithful to the source, the tick ends WITHOUT writing mem back to the
store: no saveTimeSettings call occurs in the interval callback, and the
hasUpdates flag is never consumed. -/
def tick (storedSettings : Option GlobalSettings) (now : Nat)
    (store : List TimeBlock) (d : Dedup) : TickAcc :=
  let settings := storedSettings.getD defaultSettings
  if settings.globalAlertEnabled = false then
    { store := store, dedup := d, mem := store,
      firedPre := [], firedMain := [], hasUpdates := false }
  else
    store.foldl (evalBlock settings now)
      { store := store, dedup := d, mem := [],
        firedPre := [], firedMain := [], hasUpdates := false }

/-- window.handlePreAlertTimeChange (src/preload.js lines 1365-1382): the
stored preAlertCount is 2 when preAlertTime > 3 and 1 otherwise.  The fixed
notificationType field carries no engine behaviour and is omitted. -/
def handlePreAlertTimeChange (preAlertTime : Int) (globalAlertEnabled : Bool) :
    GlobalSettings :=
  { preAlertTime := preAlertTime
    preAlertCount := if preAlertTime > 3 then 2 else 1
    globalAlertEnabled := globalAlertEnabled }

/-- Effective remaining count of a block, as read by the tick (line 1621). -/
def effRemaining (b : TimeBlock) : Int :=
  b.remainingCount.getD (b.reminderCount.getD (-1))

/-! Concrete fixtures used by witnesses and counterexamples.  Epoch day 0
(1970-01-01) is a Thursday; fixtures schedule blocks at 09:00 or 10:00 of
that day. -/

/-- A daily block at 09:00 with reminderCount 2. -/
def blockDaily2 : TimeBlock :=
  { id := 1, enabled := true, status := Status.pending,
    startTime := 9 * msPerHour, preAlert := false,
    reminderMode := some ReminderMode.daily, weekdays := none,
    reminderCount := some 2, remainingCount := some 2 }

/-- The same block with its reminder budget already exhausted. -/
def blockDaily0 : TimeBlock := { blockDaily2 with remainingCount := some 0 }

/-- A once-mode block at 09:00. -/
def blockOnce : TimeBlock :=
  { blockDaily2 with
    reminderMode := some ReminderMode.once
    reminderCount := some (-1)
    remainingCount := some (-1) }

/-- An unlimited daily block at 10:00 with pre-alerts enabled. -/
def blockPre : TimeBlock :=
  { blockDaily2 with
    startTime := 10 * msPerHour
    preAlert := true
    reminderCount := some (-1)
    remainingCount := some (-1) }

/-- A second pre-alert block at 11:00. -/
def blockPreB : TimeBlock := { blockPre with id := 2, startTime := 11 * msPerHour }

/-- A weekly block at 09:00 firing only on Tuesdays (weekday 2). -/
def blockWeeklyTue : TimeBlock :=
  { blockDaily2 with
    reminderMode := some ReminderMode.weekly
    weekdays := some [2]
    reminderCount := some (-1)
    remainingCount := some (-1) }

/-- A weekly block at 09:00 with an empty weekday set. -/
def blockWeeklyEmpty : TimeBlock := { blockWeeklyTue with weekdays := some [] }

/-- An unlimited daily block scheduled for 2024-01-31 09:00. -/
def blockJan31 : TimeBlock :=
  { blockDaily2 with
    startTime := civilToMs 2024 1 31 9 0
    reminderCount := some (-1)
    remainingCount := some (-1) }

/-- Settings with a 5-minute pre-alert window split into 2 pulses. -/
def settings52 : GlobalSettings :=
  { preAlertTime := 5, preAlertCount := 2, globalAlertEnabled := true }

/-! Helper lemmas about the map operations. -/

theorem mapGet_mapSet_self {α : Type} (m : List (Nat × α)) (k : Nat) (v : α) :
    mapGet (mapSet m k v) k = some v := by
  induction m with
  | nil => simp [mapSet, mapGet]
  | cons p rest ih =>
    by_cases h : p.1 = k <;> simp [mapSet, mapGet, h, ih]

theorem mapGet_mapSet_ne {α : Type} (m : List (Nat × α)) (k i : Nat) (v : α)
    (h : k ≠ i) : mapGet (mapSet m k v) i = mapGet m i := by
  induction m with
  | nil => simp [mapSet, mapGet, h]
  | cons p rest ih =>
    by_cases hp : p.1 = k
    · subst hp
      simp [mapSet, mapGet, h]
    · simp [mapSet, mapGet, hp, ih]

theorem mapGet_mapDelete_self {α : Type} (m : List (Nat × α)) (k : Nat) :
    mapGet (mapDelete m k) k = none := by
  induction m with
  | nil => simp [mapDelete, mapGet]
  | cons p rest ih =>
    by_cases h : p.1 = k <;> simp [mapDelete, mapGet, h, ih]

theorem mapGet_mapDelete_ne {α : Type} (m : List (Nat × α)) (k i : Nat)
    (h : k ≠ i) : mapGet (mapDelete m k) i = mapGet m i := by
  induction m with
  | nil => simp [mapDelete]
  | cons p rest ih =>
    by_cases hp : p.1 = k
    · subst hp
      simp [mapDelete, mapGet, h, ih]
    · simp [mapDelete, mapGet, hp, ih]

/-! Projection lemmas: the pre-alert step never touches the store, the
in-memory list, the main-alert dedup maps, or the fired main alerts. -/

theorem preAlertStep_store (s : GlobalSettings) (now : Nat) (acc : TickAcc)
    (b : TimeBlock) : (preAlertStep s now acc b).store = acc.store := by
  simp only [preAlertStep]
  split_ifs <;> rfl

theorem preAlertStep_mem (s : GlobalSettings) (now : Nat) (acc : TickAcc)
    (b : TimeBlock) : (preAlertStep s now acc b).mem = acc.mem := by
  simp only [preAlertStep]
  split_ifs <;> rfl

theorem preAlertStep_firedMain (s : GlobalSettings) (now : Nat) (acc : TickAcc)
    (b : TimeBlock) : (preAlertStep s now acc b).firedMain = acc.firedMain := by
  simp only [preAlertStep]
  split_ifs <;> rfl

theorem preAlertStep_lastAlertDates (s : GlobalSettings) (now : Nat)
    (acc : TickAcc) (b : TimeBlock) :
    (preAlertStep s now acc b).dedup.lastAlertDates = acc.dedup.lastAlertDates := by
  simp only [preAlertStep]
  split_ifs <;> rfl

theorem preAlertStep_lastNotificationTimes (s : GlobalSettings) (now : Nat)
    (acc : TickAcc) (b : TimeBlock) :
    (preAlertStep s now acc b).dedup.lastNotificationTimes
      = acc.dedup.lastNotificationTimes := by
  simp only [preAlertStep]
  split_ifs <;> rfl

theorem mainAlertFires_preAlertStep (s : GlobalSettings) (now : Nat)
    (acc : TickAcc) (b c : TimeBlock) :
    mainAlertFires now (preAlertStep s now acc b).dedup c
      = mainAlertFires now acc.dedup c := by
  simp only [mainAlertFires, preAlertStep_lastAlertDates,
    preAlertStep_lastNotificationTimes]

theorem mainAlertStep_firedPre (s : GlobalSettings) (now : Nat) (acc : TickAcc)
    (b : TimeBlock) : (mainAlertStep s now acc b).firedPre = acc.firedPre := by
  simp only [mainAlertStep]
  split_ifs <;> rfl

/-- A tick over a one-block store with the global switch on is a single
evaluation step. -/
theorem tick_single_eval (s : GlobalSettings) (now : Nat) (d : Dedup)
    (b : TimeBlock) (hen : s.globalAlertEnabled = true) :
    tick (some s) now [b] d
      = evalBlock s now ⟨[b], d, [], [], [], false⟩ b := by
  simp [tick, hen]

theorem evalBlock_not_skipped (s : GlobalSettings) (now : Nat) (acc : TickAcc)
    (b : TimeBlock) (he : b.enabled = true) (hp : b.status = Status.pending) :
    evalBlock s now acc b = mainAlertStep s now (preAlertStep s now acc b) b := by
  simp [evalBlock, he, hp]

/-- In the pre-alert window of a non-weekly block, the pre-alert step is
exactly a test of the fire condition. -/
theorem preAlertStep_in_window (s : GlobalSettings) (now : Nat) (acc : TickAcc)
    (b : TimeBlock) (hpa : b.preAlert = true)
    (hm : b.reminderMode.getD ReminderMode.daily ≠ ReminderMode.weekly)
    (hlo : 0 < timeDiffOf now b.startTime)
    (hhi : timeDiffOf now b.startTime ≤ s.preAlertTime) :
    preAlertStep s now acc b =
      if preAlertFires s now acc.dedup b (timeDiffOf now b.startTime) then
        { acc with
          firedPre := acc.firedPre ++ [(b.id, timeDiffOf now b.startTime)]
          dedup := { acc.dedup with
            lastRemainingMinutes :=
              mapSet acc.dedup.lastRemainingMinutes b.id (timeDiffOf now b.startTime)
            lastPreAlertTimes := mapSet acc.dedup.lastPreAlertTimes b.id now }
          hasUpdates := true }
      else acc := by
  simp only [preAlertStep]
  split_ifs with h1 h2 h3 h4 <;> try rfl
  all_goals simp_all [hpa, hlo, hhi, hm]

/-- Claim C10: settings saved through handlePreAlertTimeChange store
preAlertCount = 2 exactly when preAlertTime > 3 and 1 otherwise, hence the
count is positive and the pre-alert interval divisor is never zero. -/
theorem handlePreAlertTimeChange_count (t : Int) (g : Bool) :
    (handlePreAlertTimeChange t g).preAlertCount = (if t > 3 then 2 else 1) ∧
    0 < (handlePreAlertTimeChange t g).preAlertCount := by
  refine ⟨rfl, ?_⟩
  by_cases h : t > 3 <;> simp [handlePreAlertTimeChange, h]

/-- Claim C1, evaluated at the failing input: a daily block with
reminderCount = 2 and remainingCount = 2 fires its main alert on three
consecutive matching minutes (09:00 on three consecutive days), because the
tick never persists the decremented count back to the store; and even when
remainingCount is already 0 the block fires and finishes the tick with
status pending, since the unconditional pending reset overwrites the
disabled transition.  The spec's count-exhaustion behaviour never occurs. -/
theorem countExhaustion_never_disables :
    (let r1 := tick (some defaultSettings) (9 * msPerHour) [blockDaily2] emptyDedup
     let r2 := tick (some defaultSettings) (9 * msPerHour + msPerDay) r1.store r1.dedup
     let r3 := tick (some defaultSettings) (9 * msPerHour + 2 * msPerDay) r2.store r2.dedup
     r1.firedMain = [1] ∧ r2.firedMain = [1] ∧ r3.firedMain = [1] ∧
       r3.store = [blockDaily2] ∧
       r3.mem.map TimeBlock.status = [Status.pending]) ∧
    (let r0 := tick (some defaultSettings) (9 * msPerHour) [blockDaily0] emptyDedup
     r0.firedMain = [1] ∧ r0.mem.map TimeBlock.status = [Status.pending] ∧
       r0.mem.map TimeBlock.remainingCount = [some 0]) := by
  decide

/-- Claim C2, evaluated at the failing input: a tick that fires a main
alert mutates the in-memory block (count decremented, startTime rolled
forward, hasUpdates set) yet leaves the store exactly as it was — the
interval callback contains no write-back, so the next tick re-reads the
unmutated snapshot. -/
theorem tick_no_batch_write :
    (tick (some defaultSettings) (9 * msPerHour) [blockDaily2] emptyDedup).firedMain = [1] ∧
    (tick (some defaultSettings) (9 * msPerHour) [blockDaily2] emptyDedup).hasUpdates = true ∧
    (tick (some defaultSettings) (9 * msPerHour) [blockDaily2] emptyDedup).mem.map
      TimeBlock.remainingCount = [some 1] ∧
    (tick (some defaultSettings) (9 * msPerHour) [blockDaily2] emptyDedup).mem.map
      TimeBlock.startTime = [9 * msPerHour + msPerDay] ∧
    (tick (some defaultSettings) (9 * msPerHour) [blockDaily2] emptyDedup).store
      = [blockDaily2] := by
  decide

/-- Claim C3, refuted at a concrete input.  First: with preAlertTime = 5 and
preAlertCount = 2, a single block fires THREE distinct pre-alerts (at 5, 3
and 1 minutes remaining), so firing is not limited by the number of
pre-alerts already fired for the block.  Second: with preAlertCount = 1,
block 2 fires no pre-alert although zero pre-alerts were ever fired for it
(its dedup entries are absent) — block 1's earlier pre-alert consumed the
budget, so the budget is not per block. -/
theorem preAlert_budget_counterexample :
    (let r1 := tick (some settings52) (10 * msPerHour - 5 * msPerMinute) [blockPre] emptyDedup
     let r2 := tick (some settings52) (10 * msPerHour - 3 * msPerMinute) r1.store r1.dedup
     let r3 := tick (some settings52) (10 * msPerHour - 1 * msPerMinute) r2.store r2.dedup
     r1.firedPre = [(1, 5)] ∧ r2.firedPre = [(1, 3)] ∧ r3.firedPre = [(1, 1)]) ∧
    (let q1 := tick (some defaultSettings) (10 * msPerHour - 3 * msPerMinute)
       [blockPre, blockPreB] emptyDedup
     let q2 := tick (some defaultSettings) (11 * msPerHour - 3 * msPerMinute)
       q1.store q1.dedup
     q1.firedPre = [(1, 3)] ∧ q2.firedPre = [] ∧
       mapGet q1.dedup.lastPreAlertTimes 2 = none ∧
       mapGet q1.dedup.lastRemainingMinutes 2 = none ∧
       timeDiffOf (11 * msPerHour - 3 * msPerMinute) blockPreB.startTime = 3) := by
  decide

/-- Claim C3 as amended: for a one-block tick on an enabled, pending,
non-weekly block inside its pre-alert window, a pre-alert fires exactly
when the remaining-minutes value differs from the last recorded one for the
block, at least floor(preAlertTime / preAlertCount) minutes in milliseconds
elapsed since the block's last pre-alert, and the total number of entries
in the SHARED lastPreAlertTimes map — one per block with a recorded
pre-alert, across all blocks, not a per-block count — is below
preAlertCount. -/
theorem preAlert_fire_characterization (s : GlobalSettings) (now : Nat)
    (d : Dedup) (b : TimeBlock)
    (hen : s.globalAlertEnabled = true) (he : b.enabled = true)
    (hp : b.status = Status.pending) (hpa : b.preAlert = true)
    (hm : b.reminderMode = some ReminderMode.daily)
    (hlo : 0 < timeDiffOf now b.startTime)
    (hhi : timeDiffOf now b.startTime ≤ s.preAlertTime) :
    (tick (some s) now [b] d).firedPre = [(b.id, timeDiffOf now b.startTime)] ↔
      ((mapGet d.lastRemainingMinutes b.id).getD 0 ≠ timeDiffOf now b.startTime ∧
       (now : Int) - ((mapGet d.lastPreAlertTimes b.id).getD 0 : Int) ≥
         s.preAlertTime.fdiv s.preAlertCount * 60000 ∧
       (d.lastPreAlertTimes.length : Int) < s.preAlertCount) := by
  rw [tick_single_eval s now d b hen, evalBlock_not_skipped s now _ b he hp,
    mainAlertStep_firedPre,
    preAlertStep_in_window s now _ b hpa (by simp [hm]) hlo hhi]
  have hacc : (⟨[b], d, [], [], [], false⟩ : TickAcc).dedup = d := rfl
  rw [hacc]
  by_cases hf : preAlertFires s now d b (timeDiffOf now b.startTime) = true
  · rw [if_pos hf]
    simp only [preAlertFires, Bool.and_eq_true, decide_eq_true_eq] at hf
    simp only [List.nil_append]
    constructor
    · intro _
      exact ⟨hf.1.1, hf.1.2, hf.2⟩
    · intro _
      trivial
  · rw [if_neg hf]
    simp only [preAlertFires, Bool.and_eq_true, decide_eq_true_eq] at hf
    constructor
    · intro h
      simp at h
    · intro hr
      exact absurd ⟨⟨hr.1, hr.2.1⟩, hr.2.2⟩ hf

/-- Witness for the amended claim C3: a concrete block whose dedup state
already holds a foreign entry, so the shared budget is exhausted and the
characterization yields no fire. -/
theorem preAlert_fire_characterization_witness :
    ¬ ((tick (some defaultSettings) (10 * msPerHour - 3 * msPerMinute) [blockPre]
        { emptyDedup with lastPreAlertTimes := [(99, 1)] }).firedPre
      = [(1, 3)]) := by
  intro h
  have hiff := preAlert_fire_characterization defaultSettings
    (10 * msPerHour - 3 * msPerMinute)
    { emptyDedup with lastPreAlertTimes := [(99, 1)] } blockPre
    (by decide) (by decide) (by decide) (by decide) (by decide)
    (by decide) (by decide)
  have hc := hiff.mp (by exact_mod_cast h)
  exact absurd hc.2.2 (by decide)

theorem preAlertStep_weekly_blocked (s : GlobalSettings) (now : Nat)
    (acc : TickAcc) (b : TimeBlock)
    (hw : b.reminderMode = some ReminderMode.weekly)
    (hg : (b.weekdays.getD []).contains (jsDay now) = false) :
    preAlertStep s now acc b = acc := by
  simp only [preAlertStep]
  split_ifs <;> simp_all [hw, hg]

theorem mainAlertStep_weekly_blocked (s : GlobalSettings) (now : Nat)
    (acc : TickAcc) (b : TimeBlock)
    (hw : b.reminderMode = some ReminderMode.weekly)
    (hg : (b.weekdays.getD []).contains (jsDay now) = false) :
    mainAlertStep s now acc b = { acc with mem := acc.mem ++ [b] } := by
  simp only [mainAlertStep]
  split_ifs <;> simp_all [hw, hg]

/-- Claim C7: a weekly block whose weekday set does not contain the current
weekday never fires a main alert (and no pre-alert either), whatever the
settings, clock value and dedup state — so a weekly block with empty
weekdays never fires, and hour/minute agreement makes no difference.  The
skip leaves the block, the store and the whole dedup state unchanged. -/
theorem weekly_gating_skip (s : Option GlobalSettings) (now : Nat) (d : Dedup)
    (b : TimeBlock) (hw : b.reminderMode = some ReminderMode.weekly)
    (hg : (b.weekdays.getD []).contains (jsDay now) = false) :
    (tick s now [b] d).firedMain = [] ∧ (tick s now [b] d).firedPre = [] ∧
    (tick s now [b] d).mem = [b] ∧ (tick s now [b] d).dedup = d ∧
    (tick s now [b] d).store = [b] := by
  by_cases hsen : (s.getD defaultSettings).globalAlertEnabled = false
  · simp [tick, hsen]
  · have hrw : tick s now [b] d
        = evalBlock (s.getD defaultSettings) now ⟨[b], d, [], [], [], false⟩ b := by
      simp [tick, hsen]
    rw [hrw]
    by_cases hsk : b.enabled = false ∨ b.status ≠ Status.pending
    · simp [evalBlock, hsk]
    · rw [evalBlock, if_neg hsk,
        preAlertStep_weekly_blocked _ _ _ _ hw hg,
        mainAlertStep_weekly_blocked _ _ _ _ hw hg]
      exact ⟨rfl, rfl, rfl, rfl, rfl⟩

/-- Witness for claim C7: a weekly Tuesday-only block at 09:00 does not
fire at 09:00 on a Thursday even though hour and minute match, and a
weekly block with an empty weekday set does not fire either. -/
theorem weekly_gating_skip_witness :
    ((tick (some defaultSettings) (9 * msPerHour) [blockWeeklyTue] emptyDedup).firedMain = []
      ∧ (tick (some defaultSettings) (9 * msPerHour) [blockWeeklyTue] emptyDedup).dedup
        = emptyDedup) ∧
    (tick (some defaultSettings) (9 * msPerHour) [blockWeeklyEmpty] emptyDedup).firedMain
      = [] := by
  refine ⟨⟨?_, ?_⟩, ?_⟩
  · exact (weekly_gating_skip (some defaultSettings) (9 * msPerHour) emptyDedup
      blockWeeklyTue (by decide) (by decide)).1
  · exact (weekly_gating_skip (some defaultSettings) (9 * msPerHour) emptyDedup
      blockWeeklyTue (by decide) (by decide)).2.2.2.1
  · exact (weekly_gating_skip (some defaultSettings) (9 * msPerHour) emptyDedup
      blockWeeklyEmpty (by decide) (by decide)).1

theorem effRemaining_rollBlock (b : TimeBlock) :
    effRemaining (rollBlock b) = effRemaining b ∨
      (0 < effRemaining b ∧ effRemaining (rollBlock b) = effRemaining b - 1) := by
  simp only [rollBlock, effRemaining]
  split_ifs <;> simp_all <;> omega

/-- Claim C9: the per-block evaluation step appends exactly one block to the
in-memory list; its effective remaining count is either unchanged or
decremented by one from a strictly positive value (the step decrements only
when remainingCount > 0), so a nonnegative remaining count never becomes
negative under any sequence of main-alert fires. -/
theorem evalStep_remaining_nonneg (s : GlobalSettings) (now : Nat)
    (acc : TickAcc) (b : TimeBlock) :
    ∃ c, (evalBlock s now acc b).mem = acc.mem ++ [c] ∧
      (effRemaining c = effRemaining b ∨
        (0 < effRemaining b ∧ effRemaining c = effRemaining b - 1)) ∧
      (0 ≤ effRemaining b → 0 ≤ effRemaining c) := by
  by_cases hsk : b.enabled = false ∨ b.status ≠ Status.pending
  · exact ⟨b, by simp [evalBlock, hsk], Or.inl rfl, fun h => h⟩
  · rw [evalBlock, if_neg hsk]
    set acc1 := preAlertStep s now acc b with hacc1
    have hmem1 : acc1.mem = acc.mem := preAlertStep_mem s now acc b
    simp only [mainAlertStep]
    split_ifs
    all_goals
      first
        | (refine ⟨b, ?_, Or.inl rfl, fun h => h⟩
           simp [hmem1]
           done)
        | (refine ⟨rollBlock b, ?_, effRemaining_rollBlock b,
             fun h => by rcases effRemaining_rollBlock b with h1 | h2 <;> omega⟩
           simp [hmem1]
           done)

/-- Witness for claim C9 at a concrete input: the evaluation step on the
firing reminderCount = 2 block decrements its remaining count from 2 to 1
and keeps it nonnegative. -/
theorem evalStep_remaining_nonneg_witness :
    ∃ c, (evalBlock defaultSettings (9 * msPerHour)
        ⟨[blockDaily2], emptyDedup, [], [], [], false⟩ blockDaily2).mem = [] ++ [c] ∧
      (effRemaining c = effRemaining blockDaily2 ∨
        (0 < effRemaining blockDaily2 ∧
          effRemaining c = effRemaining blockDaily2 - 1)) ∧
      (0 ≤ effRemaining blockDaily2 → 0 ≤ effRemaining c) :=
  evalStep_remaining_nonneg defaultSettings (9 * msPerHour)
    ⟨[blockDaily2], emptyDedup, [], [], [], false⟩ blockDaily2

/-! Arithmetic facts about the clock and calendar model. -/

theorem jsHours_addDays (t n : Nat) : jsHours (jsAddDays t n) = jsHours t := by
  simp only [jsHours, jsAddDays, msPerDay, msPerHour]
  omega

theorem jsMinutes_addDays (t n : Nat) : jsMinutes (jsAddDays t n) = jsMinutes t := by
  simp only [jsMinutes, jsAddDays, msPerDay, msPerMinute]
  omega

theorem jsDay_addDays (t n : Nat) : jsDay (jsAddDays t n) = (jsDay t + n) % 7 := by
  simp only [jsDay, jsAddDays, msPerDay]
  omega

theorem daysInMonth_pos (y m : Nat) : 1 ≤ daysInMonth y m := by
  unfold daysInMonth
  split_ifs <;> omega

theorem daysBeforeMonth_one (y : Nat) : daysBeforeMonth y 1 = 0 := rfl

theorem daysBeforeMonth_succ (y m : Nat) (h : 1 ≤ m) :
    daysBeforeMonth y (m + 1) = daysBeforeMonth y m + daysInMonth y m := by
  obtain ⟨m0, rfl⟩ : ∃ m0, m = m0 + 1 := ⟨m - 1, by omega⟩
  simp [daysBeforeMonth, List.range_succ]

theorem daysBeforeYear_succ (y : Nat) (h : 1970 ≤ y) :
    daysBeforeYear (y + 1) = daysBeforeYear y + daysInYear y := by
  have h1 : y + 1 - 1970 = (y - 1970) + 1 := by omega
  have h2 : 1970 + (y - 1970) = y := by omega
  rw [daysBeforeYear, h1, List.range_succ]
  simp [daysBeforeYear, h2]

theorem daysBeforeMonth_year (y : Nat) :
    daysBeforeMonth y 12 + daysInMonth y 12 = daysInYear y := by
  have hr : List.range 11 = [0, 1, 2, 3, 4, 5, 6, 7, 8, 9, 10] := rfl
  cases h : isLeap y <;>
    simp [daysBeforeMonth, hr, daysInMonth, daysInYear, h]

/-- Adding one day in the epoch model is exactly the next-calendar-day step
on civil dates, across month and year boundaries. -/
theorem civil_next_day (y m d hh mm : Nat) (hy : 1970 ≤ y)
    (hm1 : 1 ≤ m) (hm2 : m ≤ 12) (hd1 : 1 ≤ d) (hd2 : d ≤ daysInMonth y m) :
    jsAddDays (civilToMs y m d hh mm) 1
      = civilToMs (nextCivil y m d).1 (nextCivil y m d).2.1
          (nextCivil y m d).2.2 hh mm := by
  unfold nextCivil
  by_cases h1 : d < daysInMonth y m
  · rw [if_pos h1]
    simp only [civilToMs, jsAddDays, msPerDay, msPerHour, msPerMinute]
    omega
  · rw [if_neg h1]
    have hd : d = daysInMonth y m := by omega
    by_cases h2 : m < 12
    · rw [if_pos h2]
      have hstep := daysBeforeMonth_succ y m hm1
      have hpos := daysInMonth_pos y m
      simp only [civilToMs, jsAddDays, msPerDay, msPerHour, msPerMinute]
      rw [hstep]
      omega
    · rw [if_neg h2]
      have hm12 : m = 12 := by omega
      subst hm12
      have hstep := daysBeforeYear_succ y hy
      have hyear := daysBeforeMonth_year y
      have hpos := daysInMonth_pos y 12
      simp only [civilToMs, jsAddDays, msPerDay, msPerHour, msPerMinute,
        daysBeforeMonth_one]
      rw [hstep]
      omega

theorem timeDiffOf_minute_match (now t : Nat) (h1 : jsHours now = jsHours t)
    (h2 : jsMinutes now = jsMinutes t) : timeDiffOf now t = 0 := by
  simp [timeDiffOf, minuteOfDay, h1, h2]

/-- At the block's own matching minute the pre-alert window test fails
(timeDiff = 0), so the pre-alert step is a no-op. -/
theorem preAlertStep_minute_match (s : GlobalSettings) (now : Nat)
    (acc : TickAcc) (b : TimeBlock) (h1 : jsHours now = jsHours b.startTime)
    (h2 : jsMinutes now = jsMinutes b.startTime) :
    preAlertStep s now acc b = acc := by
  have h0 := timeDiffOf_minute_match now b.startTime h1 h2
  simp [preAlertStep, h0]

theorem rollBlock_startTime_daily (b : TimeBlock)
    (hm : b.reminderMode.getD ReminderMode.daily = ReminderMode.daily) :
    (rollBlock b).startTime = jsAddDays b.startTime 1 := by
  simp only [rollBlock, hm]
  split_ifs <;> rfl

/-- Claim C5: when a daily block fires its main alert, the recurrence step
sets its next startTime to exactly one day after the fired startTime, which
preserves the hour and minute; and one epoch day is exactly one calendar
day, rolling over months and years (so a fire at 2024-01-31T09:00
reschedules to 2024-02-01T09:00, as the witness instantiates). -/
theorem daily_roll_next_calendar_day (s : GlobalSettings) (now : Nat)
    (d : Dedup) (b : TimeBlock)
    (hen : s.globalAlertEnabled = true) (he : b.enabled = true)
    (hp : b.status = Status.pending)
    (hm : b.reminderMode = some ReminderMode.daily)
    (hh : jsHours now = jsHours b.startTime)
    (hmin : jsMinutes now = jsMinutes b.startTime)
    (hfire : mainAlertFires now d b = true) :
    (tick (some s) now [b] d).firedMain = [b.id] ∧
    (tick (some s) now [b] d).mem.map TimeBlock.startTime
      = [jsAddDays b.startTime 1] ∧
    jsHours (jsAddDays b.startTime 1) = jsHours b.startTime ∧
    jsMinutes (jsAddDays b.startTime 1) = jsMinutes b.startTime ∧
    (∀ y mo dd hhh mmm, 1970 ≤ y → 1 ≤ mo → mo ≤ 12 → 1 ≤ dd →
      dd ≤ daysInMonth y mo →
      jsAddDays (civilToMs y mo dd hhh mmm) 1
        = civilToMs (nextCivil y mo dd).1 (nextCivil y mo dd).2.1
            (nextCivil y mo dd).2.2 hhh mmm) := by
  have hrw : tick (some s) now [b] d
      = mainAlertStep s now ⟨[b], d, [], [], [], false⟩ b := by
    rw [tick_single_eval s now d b hen, evalBlock_not_skipped s now _ b he hp,
      preAlertStep_minute_match s now _ b hh hmin]
  have hnotonce : ¬ b.reminderMode = some ReminderMode.once := by simp [hm]
  have hgetd : b.reminderMode.getD ReminderMode.daily = ReminderMode.daily := by
    simp [hm]
  have hnw : ¬ b.reminderMode.getD ReminderMode.daily = ReminderMode.weekly := by
    simp [hm]
  rw [hrw]
  simp only [mainAlertStep]
  rw [if_pos ⟨hh, hmin⟩, if_neg hnw, if_pos rfl, if_pos hfire, if_neg hnotonce]
  refine ⟨rfl, ?_, jsHours_addDays b.startTime 1, jsMinutes_addDays b.startTime 1,
    fun y mo dd hhh mmm a1 a2 a3 a4 a5 => civil_next_day y mo dd hhh mmm a1 a2 a3 a4 a5⟩
  simp [rollBlock_startTime_daily b hgetd]

/-- Witness for claim C5: the concrete 2024-01-31T09:00 daily block
reschedules to 2024-02-01T09:00. -/
theorem daily_roll_next_calendar_day_witness :
    (tick (some defaultSettings) (civilToMs 2024 1 31 9 0) [blockJan31]
      emptyDedup).mem.map TimeBlock.startTime = [civilToMs 2024 2 1 9 0] := by
  have h := daily_roll_next_calendar_day defaultSettings (civilToMs 2024 1 31 9 0)
    emptyDedup blockJan31 rfl rfl rfl rfl rfl rfl (by decide)
  rw [h.2.1]
  have h2 := h.2.2.2.2 2024 1 31 9 0 (by decide) (by decide) (by decide)
    (by decide) (by decide)
  have h3 : nextCivil 2024 1 31 = (2024, 2, 1) := by decide
  rw [show blockJan31.startTime = civilToMs 2024 1 31 9 0 from rfl, h2, h3]

theorem tick_empty (s2 : Option GlobalSettings) (now2 : Nat) (dd : Dedup) :
    (tick s2 now2 [] dd).firedMain = [] ∧ (tick s2 now2 [] dd).mem = [] := by
  by_cases h : (s2.getD defaultSettings).globalAlertEnabled = false <;>
    simp [tick, h]

/-- Claim C8: a once-mode block that fires its main alert is removed from
the store within the same tick, its in-memory copy keeps its original
fields (no count decrement, no startTime roll-forward), and any next tick
over the resulting store evaluates nothing. -/
theorem once_fire_deletes (s : GlobalSettings) (s2 : Option GlobalSettings)
    (now now2 : Nat) (d : Dedup) (b : TimeBlock)
    (hen : s.globalAlertEnabled = true) (he : b.enabled = true)
    (hp : b.status = Status.pending)
    (hm : b.reminderMode = some ReminderMode.once)
    (hh : jsHours now = jsHours b.startTime)
    (hmin : jsMinutes now = jsMinutes b.startTime)
    (hfire : mainAlertFires now d b = true) :
    (tick (some s) now [b] d).firedMain = [b.id] ∧
    (tick (some s) now [b] d).store = [] ∧
    (tick (some s) now [b] d).mem = [b] ∧
    (tick s2 now2 (tick (some s) now [b] d).store
      (tick (some s) now [b] d).dedup).firedMain = [] ∧
    (tick s2 now2 (tick (some s) now [b] d).store
      (tick (some s) now [b] d).dedup).mem = [] := by
  have hnw : ¬ b.reminderMode.getD ReminderMode.daily = ReminderMode.weekly := by
    simp [hm]
  have hrw : tick (some s) now [b] d
      = mainAlertStep s now ⟨[b], d, [], [], [], false⟩ b := by
    rw [tick_single_eval s now d b hen, evalBlock_not_skipped s now _ b he hp,
      preAlertStep_minute_match s now _ b hh hmin]
  have hstep : mainAlertStep s now ⟨[b], d, [], [], [], false⟩ b
      = { store := deleteTimeBlock [b] b.id
          dedup := dedupClearFor
            { d with
              lastAlertDates := mapSet d.lastAlertDates b.id (jsMidnight now)
              lastNotificationTimes := mapSet d.lastNotificationTimes b.id now } b.id
          mem := [] ++ [b], firedPre := [], firedMain := [] ++ [b.id]
          hasUpdates := true } := by
    simp only [mainAlertStep]
    rw [if_pos ⟨hh, hmin⟩, if_neg hnw, if_pos rfl, if_pos hfire, if_pos hm]
  have hdel : deleteTimeBlock [b] b.id = [] := by
    simp [deleteTimeBlock, saveTimeSettings]
  rw [hrw, hstep, hdel]
  exact ⟨rfl, rfl, rfl, (tick_empty s2 now2 _).1, (tick_empty s2 now2 _).2⟩

/-- Witness for claim C8: the concrete once-mode block at 09:00 fires, is
deleted from the store, keeps its in-memory fields, and the next tick
evaluates an empty store. -/
theorem once_fire_deletes_witness :
    (tick (some defaultSettings) (9 * msPerHour) [blockOnce] emptyDedup).firedMain
      = [1] ∧
    (tick (some defaultSettings) (9 * msPerHour) [blockOnce] emptyDedup).store = [] ∧
    (tick (some defaultSettings) (9 * msPerHour) [blockOnce] emptyDedup).mem
      = [blockOnce] := by
  have h := once_fire_deletes defaultSettings (some defaultSettings)
    (9 * msPerHour) (9 * msPerHour + 5000) emptyDedup blockOnce
    rfl rfl rfl rfl rfl rfl (by decide)
  exact ⟨h.1, h.2.1, h.2.2.1⟩

/-- Claim C6: for a valid weekday w in the set, the weekly recurrence
calculator returns the first date among the seven days after the fired
startTime whose weekday is in the set, at the same hour and minute. -/
theorem weekly_scan_first_match (t : Nat) (weekdays : List Nat)
    (w : Nat) (hw : w ∈ weekdays) (hw7 : w < 7) :
    ∃ k, 1 ≤ k ∧ k ≤ 7 ∧
      getNextWeeklyAlertDate t weekdays = jsAddDays t k ∧
      weekdays.contains (jsDay (jsAddDays t k)) = true ∧
      (∀ j, 1 ≤ j → j < k → weekdays.contains (jsDay (jsAddDays t j)) = false) ∧
      jsHours (jsAddDays t k) = jsHours t ∧
      jsMinutes (jsAddDays t k) = jsMinutes t := by
  have hcw : jsDay t < 7 := Nat.mod_lt _ (by norm_num)
  have hhit : ∃ i, 1 ≤ i ∧ i ≤ 7 ∧ (jsDay t + i) % 7 ∈ weekdays := by
    by_cases hlt : jsDay t < w
    · refine ⟨w - jsDay t, by omega, by omega, ?_⟩
      have he1 : (jsDay t + (w - jsDay t)) % 7 = w := by omega
      rw [he1]
      exact hw
    · refine ⟨w + 7 - jsDay t, by omega, by omega, ?_⟩
      have he1 : (jsDay t + (w + 7 - jsDay t)) % 7 = w := by omega
      rw [he1]
      exact hw
  by_cases h1 : (jsDay t + 1) % 7 ∈ weekdays
  · refine ⟨1, by omega, by omega, ?_, ?_, ?_, jsHours_addDays t 1, jsMinutes_addDays t 1⟩
    · simp [getNextWeeklyAlertDate, List.find?, h1]
    · rw [jsDay_addDays]
      simpa using h1
    · intro j hj1 hj2
      omega
  ·
    by_cases h2 : (jsDay t + 2) % 7 ∈ weekdays
    · refine ⟨2, by omega, by omega, ?_, ?_, ?_, jsHours_addDays t 2, jsMinutes_addDays t 2⟩
      · simp [getNextWeeklyAlertDate, List.find?, h1, h2]
      · rw [jsDay_addDays]
        simpa using h2
      · intro j hj1 hj2
        rw [jsDay_addDays]
        interval_cases j
        · simp [h1]
    ·
      by_cases h3 : (jsDay t + 3) % 7 ∈ weekdays
      · refine ⟨3, by omega, by omega, ?_, ?_, ?_, jsHours_addDays t 3, jsMinutes_addDays t 3⟩
        · simp [getNextWeeklyAlertDate, List.find?, h1, h2, h3]
        · rw [jsDay_addDays]
          simpa using h3
        · intro j hj1 hj2
          rw [jsDay_addDays]
          interval_cases j
          · simp [h1]
          · simp [h2]
      ·
        by_cases h4 : (jsDay t + 4) % 7 ∈ weekdays
        · refine ⟨4, by omega, by omega, ?_, ?_, ?_, jsHours_addDays t 4, jsMinutes_addDays t 4⟩
          · simp [getNextWeeklyAlertDate, List.find?, h1, h2, h3, h4]
          · rw [jsDay_addDays]
            simpa using h4
          · intro j hj1 hj2
            rw [jsDay_addDays]
            interval_cases j
            · simp [h1]
            · simp [h2]
            · simp [h3]
        ·
          by_cases h5 : (jsDay t + 5) % 7 ∈ weekdays
          · refine ⟨5, by omega, by omega, ?_, ?_, ?_, jsHours_addDays t 5, jsMinutes_addDays t 5⟩
            · simp [getNextWeeklyAlertDate, List.find?, h1, h2, h3, h4, h5]
            · rw [jsDay_addDays]
              simpa using h5
            · intro j hj1 hj2
              rw [jsDay_addDays]
              interval_cases j
              · simp [h1]
              · simp [h2]
              · simp [h3]
              · simp [h4]
          ·
            by_cases h6 : (jsDay t + 6) % 7 ∈ weekdays
            · refine ⟨6, by omega, by omega, ?_, ?_, ?_, jsHours_addDays t 6, jsMinutes_addDays t 6⟩
              · simp [getNextWeeklyAlertDate, List.find?, h1, h2, h3, h4, h5, h6]
              · rw [jsDay_addDays]
                simpa using h6
              · intro j hj1 hj2
                rw [jsDay_addDays]
                interval_cases j
                · simp [h1]
                · simp [h2]
                · simp [h3]
                · simp [h4]
                · simp [h5]
            ·
              by_cases h7 : jsDay t ∈ weekdays
              · refine ⟨7, by omega, by omega, ?_, ?_, ?_, jsHours_addDays t 7, jsMinutes_addDays t 7⟩
                · simp [getNextWeeklyAlertDate, List.find?, h1, h2, h3, h4, h5, h6, h7, Nat.mod_eq_of_lt hcw]
                · rw [jsDay_addDays]
                  simpa [Nat.add_mod_right, Nat.mod_eq_of_lt hcw] using h7
                · intro j hj1 hj2
                  rw [jsDay_addDays]
                  interval_cases j
                  · simp [h1]
                  · simp [h2]
                  · simp [h3]
                  · simp [h4]
                  · simp [h5]
                  · simp [h6]
              ·
                exfalso
                obtain ⟨i, hi1, hi2, hi3⟩ := hhit
                interval_cases i
                · exact h1 hi3
                · exact h2 hi3
                · exact h3 hi3
                · exact h4 hi3
                · exact h5 hi3
                · exact h6 hi3
                · exact h7 (by simpa [Nat.add_mod_right, Nat.mod_eq_of_lt hcw] using hi3)

/-- Witness for claim C6: a block fired on a Thursday with
weekdays = Mon, Wed, Fri reschedules to the next day (Friday). -/
theorem weekly_scan_first_match_witness :
    ∃ k, 1 ≤ k ∧ k ≤ 7 ∧
      getNextWeeklyAlertDate (9 * msPerHour) [1, 3, 5] = jsAddDays (9 * msPerHour) k ∧
      ([1, 3, 5] : List Nat).contains (jsDay (jsAddDays (9 * msPerHour) k)) = true ∧
      (∀ j, 1 ≤ j → j < k →
        ([1, 3, 5] : List Nat).contains (jsDay (jsAddDays (9 * msPerHour) j)) = false) ∧
      jsHours (jsAddDays (9 * msPerHour) k) = jsHours (9 * msPerHour) ∧
      jsMinutes (jsAddDays (9 * msPerHour) k) = jsMinutes (9 * msPerHour) :=
  weekly_scan_first_match (9 * msPerHour) [1, 3, 5] 1 (by decide) (by decide)

/-! Lemmas for the idempotence claim: dedup guards persist through a tick. -/

theorem tick_disabled (s : Option GlobalSettings) (now : Nat)
    (store : List TimeBlock) (d : Dedup)
    (hsen : (s.getD defaultSettings).globalAlertEnabled = false) :
    tick s now store d = ⟨store, d, store, [], [], false⟩ := by
  simp [tick, hsen]

theorem tick_enabled (s : Option GlobalSettings) (now : Nat)
    (store : List TimeBlock) (d : Dedup)
    (hsen : ¬ ((s.getD defaultSettings).globalAlertEnabled = false)) :
    tick s now store d
      = store.foldl (evalBlock (s.getD defaultSettings) now)
          ⟨store, d, [], [], [], false⟩ := by
  simp [tick, hsen]

theorem mainAlertStep_today_guard (s : GlobalSettings) (now : Nat)
    (acc : TickAcc) (b : TimeBlock) (i : Nat)
    (hinv : mapGet acc.dedup.lastAlertDates i = some (jsMidnight now))
    (hfm : i ∉ acc.firedMain) :
    mapGet (mainAlertStep s now acc b).dedup.lastAlertDates i
      = some (jsMidnight now) ∧
    i ∉ (mainAlertStep s now acc b).firedMain := by
  by_cases hbi : b.id = i
  · have hnofire : ¬ (mainAlertFires now acc.dedup b = true) := by
      simp [mainAlertFires, hbi, hinv]
    simp only [mainAlertStep]
    split_ifs <;>
      first
        | exact ⟨hinv, hfm⟩
        | (exfalso; exact hnofire (by assumption))
  · have hbi2 : b.id ≠ i := hbi
    simp only [mainAlertStep]
    split_ifs <;>
      refine ⟨?_, ?_⟩ <;>
      first
        | exact hinv
        | exact hfm
        | (simp only [dedupClearFor, mapGet_mapDelete_ne _ _ _ hbi2,
            mapGet_mapSet_ne _ _ _ _ hbi2]
           exact hinv)
        | (simp only [mapGet_mapSet_ne _ _ _ _ hbi2]
           exact hinv)
        | (simp only [List.mem_append, List.mem_singleton]
           rintro (h | h)
           · exact hfm h
           · exact hbi2 h.symm)

theorem mainAlertStep_fresh_guard (s : GlobalSettings) (now : Nat)
    (acc : TickAcc) (b : TimeBlock) (i : Nat)
    (hinv : (now : Int)
      - ((mapGet acc.dedup.lastNotificationTimes i).getD 0 : Int) < 10000)
    (hfm : i ∉ acc.firedMain) :
    (now : Int) - ((mapGet (mainAlertStep s now acc b).dedup.lastNotificationTimes
      i).getD 0 : Int) < 10000 ∧
    i ∉ (mainAlertStep s now acc b).firedMain := by
  by_cases hbi : b.id = i
  · have hnofire : ¬ (mainAlertFires now acc.dedup b = true) := by
      intro hf
      simp only [mainAlertFires, Bool.and_eq_true, decide_eq_true_eq] at hf
      rw [hbi] at hf
      omega
    simp only [mainAlertStep]
    split_ifs <;>
      first
        | exact ⟨hinv, hfm⟩
        | (exfalso; exact hnofire (by assumption))
  · have hbi2 : b.id ≠ i := hbi
    simp only [mainAlertStep]
    split_ifs <;>
      refine ⟨?_, ?_⟩ <;>
      first
        | exact hinv
        | exact hfm
        | (simp only [dedupClearFor, mapGet_mapDelete_ne _ _ _ hbi2,
            mapGet_mapSet_ne _ _ _ _ hbi2]
           exact hinv)
        | (simp only [mapGet_mapSet_ne _ _ _ _ hbi2]
           exact hinv)
        | (simp only [List.mem_append, List.mem_singleton]
           rintro (h | h)
           · exact hfm h
           · exact hbi2 h.symm)

theorem evalBlock_today_guard (s : GlobalSettings) (now : Nat)
    (acc : TickAcc) (b : TimeBlock) (i : Nat)
    (hinv : mapGet acc.dedup.lastAlertDates i = some (jsMidnight now))
    (hfm : i ∉ acc.firedMain) :
    mapGet (evalBlock s now acc b).dedup.lastAlertDates i
      = some (jsMidnight now) ∧
    i ∉ (evalBlock s now acc b).firedMain := by
  by_cases hsk : b.enabled = false ∨ b.status ≠ Status.pending
  · rw [evalBlock, if_pos hsk]
    exact ⟨hinv, hfm⟩
  · rw [evalBlock, if_neg hsk]
    exact mainAlertStep_today_guard s now _ b i
      (by rw [preAlertStep_lastAlertDates]; exact hinv)
      (by rw [preAlertStep_firedMain]; exact hfm)

theorem evalBlock_fresh_guard (s : GlobalSettings) (now : Nat)
    (acc : TickAcc) (b : TimeBlock) (i : Nat)
    (hinv : (now : Int)
      - ((mapGet acc.dedup.lastNotificationTimes i).getD 0 : Int) < 10000)
    (hfm : i ∉ acc.firedMain) :
    (now : Int) - ((mapGet (evalBlock s now acc b).dedup.lastNotificationTimes
      i).getD 0 : Int) < 10000 ∧
    i ∉ (evalBlock s now acc b).firedMain := by
  by_cases hsk : b.enabled = false ∨ b.status ≠ Status.pending
  · rw [evalBlock, if_pos hsk]
    exact ⟨hinv, hfm⟩
  · rw [evalBlock, if_neg hsk]
    exact mainAlertStep_fresh_guard s now _ b i
      (by rw [preAlertStep_lastNotificationTimes]; exact hinv)
      (by rw [preAlertStep_firedMain]; exact hfm)

theorem foldl_today_guard (s : GlobalSettings) (now : Nat)
    (l : List TimeBlock) (acc : TickAcc) (i : Nat)
    (hinv : mapGet acc.dedup.lastAlertDates i = some (jsMidnight now))
    (hfm : i ∉ acc.firedMain) :
    mapGet (l.foldl (evalBlock s now) acc).dedup.lastAlertDates i
      = some (jsMidnight now) ∧
    i ∉ (l.foldl (evalBlock s now) acc).firedMain := by
  induction l generalizing acc with
  | nil => exact ⟨hinv, hfm⟩
  | cons b rest ih =>
    simp only [List.foldl_cons]
    obtain ⟨h1, h2⟩ := evalBlock_today_guard s now acc b i hinv hfm
    exact ih _ h1 h2

theorem foldl_fresh_guard (s : GlobalSettings) (now : Nat)
    (l : List TimeBlock) (acc : TickAcc) (i : Nat)
    (hinv : (now : Int)
      - ((mapGet acc.dedup.lastNotificationTimes i).getD 0 : Int) < 10000)
    (hfm : i ∉ acc.firedMain) :
    i ∉ (l.foldl (evalBlock s now) acc).firedMain := by
  induction l generalizing acc with
  | nil => exact hfm
  | cons b rest ih =>
    simp only [List.foldl_cons]
    obtain ⟨h1, h2⟩ := evalBlock_fresh_guard s now acc b i hinv hfm
    exact ih _ h1 h2

/-- A block already marked as alerted today is not fired again by any tick,
and its mark survives the tick. -/
theorem tick_today_guard (s : Option GlobalSettings) (now : Nat)
    (store : List TimeBlock) (d : Dedup) (i : Nat)
    (h : mapGet d.lastAlertDates i = some (jsMidnight now)) :
    mapGet (tick s now store d).dedup.lastAlertDates i = some (jsMidnight now) ∧
    i ∉ (tick s now store d).firedMain := by
  by_cases hsen : (s.getD defaultSettings).globalAlertEnabled = false
  · rw [tick_disabled s now store d hsen]
    exact ⟨h, by simp⟩
  · rw [tick_enabled s now store d hsen]
    exact foldl_today_guard _ now store _ i h (by simp)

/-- A block whose last notification is less than 10 seconds old is not
fired by any tick. -/
theorem tick_fresh_guard (s : Option GlobalSettings) (now : Nat)
    (store : List TimeBlock) (d : Dedup) (i : Nat)
    (h : (now : Int) - ((mapGet d.lastNotificationTimes i).getD 0 : Int) < 10000) :
    i ∉ (tick s now store d).firedMain := by
  by_cases hsen : (s.getD defaultSettings).globalAlertEnabled = false
  · rw [tick_disabled s now store d hsen]
    simp
  · rw [tick_enabled s now store d hsen]
    exact foldl_fresh_guard _ now store _ i h (by simp)

theorem evalBlock_firedMain_mono (s : GlobalSettings) (now : Nat)
    (acc : TickAcc) (b : TimeBlock) :
    (evalBlock s now acc b).firedMain = acc.firedMain ∨
    (evalBlock s now acc b).firedMain = acc.firedMain ++ [b.id] := by
  by_cases hsk : b.enabled = false ∨ b.status ≠ Status.pending
  · rw [evalBlock, if_pos hsk]
    exact Or.inl rfl
  · rw [evalBlock, if_neg hsk]
    simp only [mainAlertStep]
    split_ifs <;> simp [preAlertStep_firedMain]

theorem foldl_firedMain_ids (s : GlobalSettings) (now : Nat)
    (l : List TimeBlock) (acc : TickAcc) (i : Nat) :
    i ∈ (l.foldl (evalBlock s now) acc).firedMain →
      i ∈ acc.firedMain ∨ i ∈ l.map TimeBlock.id := by
  induction l generalizing acc with
  | nil =>
    intro h
    exact Or.inl h
  | cons b rest ih =>
    intro h
    simp only [List.foldl_cons] at h
    rcases ih _ h with h1 | h1
    · rcases evalBlock_firedMain_mono s now acc b with he | he
      · rw [he] at h1
        exact Or.inl h1
      · rw [he] at h1
        rcases List.mem_append.mp h1 with h2 | h2
        · exact Or.inl h2
        · right
          simp only [List.mem_singleton] at h2
          simp [h2]
    · right
      simp [h1]

/-- Every id fired by a tick is the id of some block in the snapshot the
tick iterated over. -/
theorem tick_firedMain_ids (s : Option GlobalSettings) (now : Nat)
    (store : List TimeBlock) (d : Dedup) (i : Nat) :
    i ∈ (tick s now store d).firedMain → i ∈ store.map TimeBlock.id := by
  by_cases hsen : (s.getD defaultSettings).globalAlertEnabled = false
  · rw [tick_disabled s now store d hsen]
    intro h
    simp at h
  · rw [tick_enabled s now store d hsen]
    intro h
    rcases foldl_firedMain_ids _ now store _ i h with h1 | h1
    · simp at h1
    · exact h1

theorem deleteTimeBlock_id_not_mem (store : List TimeBlock) (k : Nat) :
    k ∉ (deleteTimeBlock store k).map TimeBlock.id := by
  intro hmem
  simp only [deleteTimeBlock, saveTimeSettings, List.map_map, List.mem_map,
    List.mem_filter, Function.comp] at hmem
  obtain ⟨c, ⟨hc, hne⟩, hid⟩ := hmem
  have hcid : c.id = k := by simpa [normalizeBlock] using hid
  simp [hcid] at hne

theorem deleteTimeBlock_ids_subset (store : List TimeBlock) (k j : Nat) :
    j ∈ (deleteTimeBlock store k).map TimeBlock.id → j ∈ store.map TimeBlock.id := by
  intro hmem
  simp only [deleteTimeBlock, saveTimeSettings, List.map_map, List.mem_map,
    List.mem_filter, Function.comp] at hmem
  obtain ⟨c, ⟨hc, _⟩, hid⟩ := hmem
  have hcid : c.id = j := by simpa [normalizeBlock] using hid
  exact List.mem_map.mpr ⟨c, hc, hcid⟩

/-- The main-alert step either leaves everything but mem unchanged, or
fires: once-mode firing deletes the block from the store and clears its
dedup entries, non-once firing marks today, rolls the block and clears its
pre-alert entries. -/
theorem mainAlertStep_cases (s : GlobalSettings) (now : Nat) (acc : TickAcc)
    (b : TimeBlock) :
    mainAlertStep s now acc b = { acc with mem := acc.mem ++ [b] } ∨
    (b.reminderMode = some ReminderMode.once ∧
      mainAlertStep s now acc b = { acc with
        dedup := dedupClearFor { acc.dedup with
          lastAlertDates := mapSet acc.dedup.lastAlertDates b.id (jsMidnight now)
          lastNotificationTimes :=
            mapSet acc.dedup.lastNotificationTimes b.id now } b.id
        store := deleteTimeBlock acc.store b.id
        mem := acc.mem ++ [b]
        firedMain := acc.firedMain ++ [b.id]
        hasUpdates := true }) ∨
    (¬ b.reminderMode = some ReminderMode.once ∧
      mainAlertStep s now acc b = { acc with
        dedup := { acc.dedup with
          lastAlertDates := mapSet acc.dedup.lastAlertDates b.id (jsMidnight now)
          lastNotificationTimes := mapSet acc.dedup.lastNotificationTimes b.id now
          lastPreAlertTimes := mapDelete acc.dedup.lastPreAlertTimes b.id
          lastRemainingMinutes := mapDelete acc.dedup.lastRemainingMinutes b.id }
        mem := acc.mem ++ [rollBlock b]
        firedMain := acc.firedMain ++ [b.id]
        hasUpdates := true }) := by
  simp only [mainAlertStep]
  split_ifs
  all_goals
    first
      | (left; rfl)
      | (right; left; exact ⟨by assumption, rfl⟩)
      | (right; right; exact ⟨by assumption, rfl⟩)
      | (exfalso; exact (by assumption : ¬ (true = true)) rfl)

theorem mainAlertStep_fired_marked (s : GlobalSettings) (now : Nat)
    (acc : TickAcc) (b : TimeBlock) (i : Nat)
    (hI : i ∈ acc.firedMain →
      mapGet acc.dedup.lastAlertDates i = some (jsMidnight now) ∨
      i ∉ acc.store.map TimeBlock.id) :
    i ∈ (mainAlertStep s now acc b).firedMain →
      mapGet (mainAlertStep s now acc b).dedup.lastAlertDates i
        = some (jsMidnight now) ∨
      i ∉ (mainAlertStep s now acc b).store.map TimeBlock.id := by
  rcases mainAlertStep_cases s now acc b with hc | ⟨honce, hc⟩ | ⟨honce, hc⟩ <;>
    rw [hc]
  · exact hI
  · by_cases hbi : b.id = i
    · subst hbi
      intro _
      right
      exact deleteTimeBlock_id_not_mem acc.store b.id
    · have hbi2 : b.id ≠ i := hbi
      intro hmem
      rcases List.mem_append.mp hmem with h1 | h1
      · rcases hI h1 with h2 | h2
        · left
          simp only [dedupClearFor, mapGet_mapDelete_ne _ _ _ hbi2,
            mapGet_mapSet_ne _ _ _ _ hbi2]
          exact h2
        · right
          intro h3
          exact h2 (deleteTimeBlock_ids_subset acc.store b.id i h3)
      · simp only [List.mem_singleton] at h1
        exact absurd h1.symm hbi2
  · by_cases hbi : b.id = i
    · subst hbi
      intro _
      left
      exact mapGet_mapSet_self acc.dedup.lastAlertDates b.id (jsMidnight now)
    · have hbi2 : b.id ≠ i := hbi
      intro hmem
      rcases List.mem_append.mp hmem with h1 | h1
      · rcases hI h1 with h2 | h2
        · left
          simp only [mapGet_mapSet_ne _ _ _ _ hbi2]
          exact h2
        · right
          exact h2
      · simp only [List.mem_singleton] at h1
        exact absurd h1.symm hbi2

theorem evalBlock_fired_marked (s : GlobalSettings) (now : Nat)
    (acc : TickAcc) (b : TimeBlock) (i : Nat)
    (hI : i ∈ acc.firedMain →
      mapGet acc.dedup.lastAlertDates i = some (jsMidnight now) ∨
      i ∉ acc.store.map TimeBlock.id) :
    i ∈ (evalBlock s now acc b).firedMain →
      mapGet (evalBlock s now acc b).dedup.lastAlertDates i
        = some (jsMidnight now) ∨
      i ∉ (evalBlock s now acc b).store.map TimeBlock.id := by
  by_cases hsk : b.enabled = false ∨ b.status ≠ Status.pending
  · rw [evalBlock, if_pos hsk]
    exact hI
  · rw [evalBlock, if_neg hsk]
    apply mainAlertStep_fired_marked
    rw [preAlertStep_firedMain, preAlertStep_lastAlertDates, preAlertStep_store]
    exact hI

theorem foldl_fired_marked (s : GlobalSettings) (now : Nat)
    (l : List TimeBlock) (acc : TickAcc) (i : Nat)
    (hI : i ∈ acc.firedMain →
      mapGet acc.dedup.lastAlertDates i = some (jsMidnight now) ∨
      i ∉ acc.store.map TimeBlock.id) :
    i ∈ (l.foldl (evalBlock s now) acc).firedMain →
      mapGet (l.foldl (evalBlock s now) acc).dedup.lastAlertDates i
        = some (jsMidnight now) ∨
      i ∉ (l.foldl (evalBlock s now) acc).store.map TimeBlock.id := by
  induction l generalizing acc with
  | nil => exact hI
  | cons b rest ih =>
    simp only [List.foldl_cons]
    exact ih _ (evalBlock_fired_marked s now acc b i hI)

/-- After a tick, every fired id is either marked as alerted today or no
longer present in the store (once-mode deletion). -/
theorem tick_fired_marked (s : Option GlobalSettings) (now : Nat)
    (store : List TimeBlock) (d : Dedup) (i : Nat) :
    i ∈ (tick s now store d).firedMain →
      mapGet (tick s now store d).dedup.lastAlertDates i = some (jsMidnight now) ∨
      i ∉ (tick s now store d).store.map TimeBlock.id := by
  by_cases hsen : (s.getD defaultSettings).globalAlertEnabled = false
  · rw [tick_disabled s now store d hsen]
    intro h
    simp at h
  · rw [tick_enabled s now store d hsen]
    exact foldl_fired_marked _ now store _ i (by intro h; simp at h)

theorem jsMidnight_same_minute (now1 now2 : Nat)
    (h : now1 / msPerMinute = now2 / msPerMinute) :
    jsMidnight now1 = jsMidnight now2 := by
  have h1 : now1 / msPerDay = now1 / msPerMinute / 1440 := by
    rw [Nat.div_div_eq_div_mul]
    rfl
  have h2 : now2 / msPerDay = now2 / msPerMinute / 1440 := by
    rw [Nat.div_div_eq_div_mul]
    rfl
  simp only [jsMidnight, h1, h2, h]

/-- Claim C4: running the tick twice within the same wall-clock minute,
with the second run seeing the store and dedup state produced by the first,
fires each qualifying main alert exactly once.  The second run fires no
main alert for a block whose lastAlertDates entry equals today, none for a
block whose lastNotificationTimes entry is less than 10 seconds old, and
none for any block fired by the first run. -/
theorem sameMinute_second_tick_noop (s : Option GlobalSettings)
    (now1 now2 : Nat) (store : List TimeBlock) (d : Dedup)
    (hsame : now1 / msPerMinute = now2 / msPerMinute) :
    (∀ i, mapGet (tick s now1 store d).dedup.lastAlertDates i
        = some (jsMidnight now2) →
      i ∉ (tick s now2 (tick s now1 store d).store
        (tick s now1 store d).dedup).firedMain) ∧
    (∀ i, (now2 : Int) - ((mapGet (tick s now1 store d).dedup.lastNotificationTimes
        i).getD 0 : Int) < 10000 →
      i ∉ (tick s now2 (tick s now1 store d).store
        (tick s now1 store d).dedup).firedMain) ∧
    (∀ i, i ∈ (tick s now1 store d).firedMain →
      i ∉ (tick s now2 (tick s now1 store d).store
        (tick s now1 store d).dedup).firedMain) := by
  refine ⟨?_, ?_, ?_⟩
  · intro i h
    exact (tick_today_guard s now2 _ _ i h).2
  · intro i h
    exact tick_fresh_guard s now2 _ _ i h
  · intro i h
    rcases tick_fired_marked s now1 store d i h with h1 | h1
    · have h2 : mapGet (tick s now1 store d).dedup.lastAlertDates i
          = some (jsMidnight now2) := by
        rw [← jsMidnight_same_minute now1 now2 hsame]
        exact h1
      exact (tick_today_guard s now2 _ _ i h2).2
    · intro hmem
      exact h1 (tick_firedMain_ids s now2 _ _ i hmem)

/-- Witness for claim C4: the 09:00 block fires on the first tick of the
minute and not on a second tick five seconds later. -/
theorem sameMinute_second_tick_noop_witness :
    1 ∈ (tick (some defaultSettings) (9 * msPerHour) [blockDaily2]
      emptyDedup).firedMain ∧
    1 ∉ (tick (some defaultSettings) (9 * msPerHour + 5000)
      (tick (some defaultSettings) (9 * msPerHour) [blockDaily2] emptyDedup).store
      (tick (some defaultSettings) (9 * msPerHour) [blockDaily2]
        emptyDedup).dedup).firedMain := by
  constructor
  · decide
  · exact (sameMinute_second_tick_noop (some defaultSettings) (9 * msPerHour)
      (9 * msPerHour + 5000) [blockDaily2] emptyDedup (by decide)).2.2 1 (by decide)

end DeskClock
